import Mathlib

/-!
Verification of the `order_grouping` delivery-planning service.

This file shallowly embeds the parts of the repository relevant to the
frozen claims:

* `src/order_grouping/domain_mapping.py` — timestamp parsing, minute
  rounding and `DomainToSolverMapper.build_problem` / `build_metadata`;
* `src/order_grouping/solver.py` — the input-reading prologue of
  `Solver.solve`, the big-M computation, the empty-result branch for
  non-solution statuses, the route-reconstruction loop and the
  per-request state effect on the `Solver` object;
* `src/order_grouping/api.py` — `_format_domain_response`,
  `_minutes_to_iso` and the `/solve` pipeline glue.

Timestamps are modelled as integers of UTC seconds.  Python dicts are
modelled as association lists of `String` keys; a `KeyError` is an
`Except.error` carrying the missing key.  Fallible Python code is
embedded in `Except String`.
-/

/-- A value stored in one of the JSON-ish problem dictionaries:
integers, floats (as rationals), integer lists and integer matrices. -/
inductive PVal where
  | i (z : ℤ)
  | q (x : ℚ)
  | l (xs : List ℤ)
  | m (xss : List (List ℤ))
deriving DecidableEq

/-- A Python dict with string keys, modelled as an association list. -/
def PDict : Type := List (String × PVal)

/-- `d.get(k)` — first binding wins; our builders never duplicate keys. -/
def dfind (d : PDict) (k : String) : Option PVal :=
  (List.find? (fun p => p.1 == k) d).map (·.2)

/-- `d[k]` — raises `KeyError(k)` when the key is absent. -/
def dreq (d : PDict) (k : String) : Except String PVal :=
  match dfind d k with
  | some v => Except.ok v
  | none => Except.error k

/-- `int(v)` on a dict value (only integer payloads occur here). -/
def asInt : PVal → Except String ℤ
  | PVal.i z => Except.ok z
  | _ => Except.error "TypeError: int()"

/-- `list(v)` on a dict value holding a list of integers. -/
def asIntList : PVal → Except String (List ℤ)
  | PVal.l xs => Except.ok xs
  | _ => Except.error "TypeError: list()"

/-- Reading a matrix-valued entry such as `problem[\x22tau\x22]`. -/
def asMatrix : PVal → Except String (List (List ℤ))
  | PVal.m xss => Except.ok xss
  | _ => Except.error "TypeError: matrix"

/-- `float(v)` on a dict value (ints are accepted). -/
def asFloat : PVal → Except String ℚ
  | PVal.q x => Except.ok x
  | PVal.i z => Except.ok (z : ℚ)
  | _ => Except.error "TypeError: float()"

/-- A Python `assert cond, msg` statement. -/
def pyAssert (b : Bool) (msg : String) : Except String Unit :=
  if b then Except.ok () else Except.error msg

/-- The values extracted by the input-reading prologue of `Solver.solve`
(solver.py lines 55-72), keeping the source's key names as field names. -/
structure ProblemData where
  tau : List (List ℤ)
  courier_capacity_boxes : List ℤ
  boxes_per_order : List ℤ
  order_created_offset : List ℤ
  order_ready_offset : List ℤ
  courier_available_offset : List ℤ
  W_cert : ℤ
  W_c2e : ℤ
  W_skip : ℤ
  time_limit : ℚ
  workers : ℤ
deriving DecidableEq

/-- The input-reading prologue of `Solver.solve` (solver.py lines 55-72):
dict accesses in source order, the `W_skip` default, the length asserts
of lines 67-69 and the optional `time_limit` / `workers` entries. -/
def readProblem (problem : PDict) : Except String ProblemData := do
  let tau ← dreq problem "tau" >>= asMatrix
  let capacity ← dreq problem "courier_capacity_boxes" >>= asIntList
  let boxes ← dreq problem "boxes_per_order" >>= asIntList
  let created ← dreq problem "order_created_offset" >>= asIntList
  let ready ← dreq problem "order_ready_offset" >>= asIntList
  let avail ← dreq problem "courier_available_offset" >>= asIntList
  let wcert ← dreq problem "W_cert" >>= asInt
  let wc2e ← dreq problem "W_c2e" >>= asInt
  let wskip ← (match dfind problem "W_skip" with
    | some v => asInt v
    | none => Except.ok wcert)
  let n := boxes.length
  let k := avail.length
  let _ ← pyAssert (capacity.length == k)
      "courier_capacity_boxes must equal number of couriers"
  let _ ← pyAssert (created.length == n && ready.length == n)
      "order offsets must have length N"
  let _ ← pyAssert (tau.length == n + 1 && tau.all (fun row => row.length == n + 1))
      "tau must be (N+1)x(N+1)"
  let tl ← (match dfind problem "time_limit" with
    | some v => asFloat v
    | none => Except.ok 15)
  let wk ← (match dfind problem "workers" with
    | some v => asInt v
    | none => Except.ok 8)
  Except.ok ⟨tau, capacity, boxes, created, ready, avail, wcert, wc2e, wskip, tl, wk⟩

/-- The big-M estimate of `Solver.solve` (solver.py lines 78-90).
Python's `max(tau[i][j] for i in nodes for j in nodes if i != j)` raises
`ValueError` on an empty generator, which happens exactly when `N = 0`;
the later `if N == 0` guard of line 89 is encoded after the `max`, as in
the source.  The `getD` defaults are never consulted on inputs that pass
the shape assert of `readProblem`. -/
def computeM (p : ProblemData) : Except String ℤ :=
  let n := p.boxes_per_order.length
  let nodes := List.range (n + 1)
  let offDiag := nodes.flatMap
    (fun i => ((nodes.filter (fun j => j ≠ i)).map (fun j => (p.tau.getD i []).getD j 0)))
  match offDiag.max? with
  | none => Except.error "ValueError: max() arg is an empty sequence"
  | some maxTau =>
      let maxCourierAvailable := (p.courier_available_offset.max?).getD 0
      let maxOrderReady := (p.order_ready_offset.max?).getD 0
      let horizonStart := max maxCourierAvailable maxOrderReady
      let bigM := horizonStart + (n + 1) * maxTau + 60
      Except.ok (if n = 0 then 60 + max horizonStart 0 else bigM)

/-- Python's banker's rounding `round(d / 60)` for an integer count `d`
of seconds: floor quotient and remainder, round the sixtieths half to
even.  This is the exact value of the source's
`round(delta.total_seconds() / 60)` (the float quotient is exact or the
tie/direction is preserved for realistic second counts). -/
def roundHalfEvenSixtieths (d : ℤ) : ℤ :=
  let fl := d / 60
  let r := d % 60
  if r < 30 then fl
  else if 30 < r then fl + 1
  else if fl % 2 = 0 then fl else fl + 1

/-- `_minutes_between` (domain_mapping.py lines 29-32) on timestamps in
UTC seconds: `int(round(delta.total_seconds() / 60))`. -/
def minutesBetween (referenceSec targetSec : ℤ) : ℤ :=
  roundHalfEvenSixtieths (targetSec - referenceSec)

/-- `_minutes_to_iso` (api.py lines 23-24) restricted to its arithmetic
content: the UTC second rendered by `_isoformat(base + timedelta(minutes=m))`. -/
def minutesToIsoSec (baseSec : ℤ) (minutes : ℤ) : ℤ :=
  baseSec + 60 * minutes

/-- `DeliveryOrder` of domain_mapping.py (timestamps in UTC seconds). -/
structure DeliveryOrder where
  order_id : String
  boxes_count : ℤ
  created_at_utc : ℤ
  expected_ready_at_utc : ℤ
deriving DecidableEq

/-- `CourierShift` of domain_mapping.py. -/
structure CourierShift where
  courier_id : String
  box_capacity : ℤ
  expected_courier_return_at_utc : ℤ
deriving DecidableEq

/-- `OptimizationWeights` of domain_mapping.py. -/
structure OptimizationWeights where
  certificate_penalty_weight : ℤ
  click_to_eat_penalty_weight : ℤ
  skip_order_penalty_weight : Option ℤ
deriving DecidableEq

/-- `SolverSettings` of domain_mapping.py. -/
structure SolverSettings where
  time_limit_seconds : Option ℚ
  max_parallel_workers : Option ℤ
  max_route_arcs_per_courier : Option ℤ
deriving DecidableEq

/-- `DomainSolveRequest` of domain_mapping.py, after validation. -/
structure DomainSolveRequest where
  current_timestamp_utc : ℤ
  travel_time_matrix_minutes : List (List ℤ)
  orders : List DeliveryOrder
  couriers : List CourierShift
  optimization_weights : OptimizationWeights
  solver_settings : Option SolverSettings
deriving DecidableEq

/-- `DomainToSolverMapper.build_problem` (domain_mapping.py lines
129-160): the internal problem dict, with its exact key strings and
insertion order. -/
def buildProblem (p : DomainSolveRequest) : PDict :=
  let ref := p.current_timestamp_utc
  [("tau", PVal.m p.travel_time_matrix_minutes),
   ("K", PVal.i (p.couriers.length : ℤ)),
   ("C", PVal.l (p.couriers.map (·.box_capacity))),
   ("box", PVal.l (p.orders.map (·.boxes_count))),
   ("c", PVal.l (p.orders.map (fun o => minutesBetween ref o.created_at_utc))),
   ("r", PVal.l (p.orders.map (fun o => minutesBetween ref o.expected_ready_at_utc))),
   ("a", PVal.l (p.couriers.map (fun k => minutesBetween ref k.expected_courier_return_at_utc))),
   ("W_cert", PVal.i p.optimization_weights.certificate_penalty_weight),
   ("W_c2e", PVal.i p.optimization_weights.click_to_eat_penalty_weight)]
  ++ (match p.optimization_weights.skip_order_penalty_weight with
      | some w => [("W_skip", PVal.i w)]
      | none => [])
  ++ (match p.solver_settings with
      | none => []
      | some s =>
        (match s.time_limit_seconds with
          | some tl => [("time_limit", PVal.q tl)]
          | none => [])
        ++ (match s.max_parallel_workers with
          | some w => [("workers", PVal.i w)]
          | none => [])
        ++ (match s.max_route_arcs_per_courier with
          | some m => [("max_route_arcs_per_courier", PVal.i m)]
          | none => []))

/-- The sample domain payload of the repository's own test suite
(src/order_grouping/tests/test_api.py, fixture `sample_payload`),
with timestamps as UTC seconds relative to 2024-01-01T12:00:00Z. -/
def samplePayload : DomainSolveRequest :=
  { current_timestamp_utc := 0
    travel_time_matrix_minutes := [[0, 10, 12], [10, 0, 4], [12, 4, 0]]
    orders :=
      [{ order_id := "o-1", boxes_count := 1,
         created_at_utc := -900, expected_ready_at_utc := 300 },
       { order_id := "o-2", boxes_count := 2,
         created_at_utc := -600, expected_ready_at_utc := 600 }]
    couriers :=
      [{ courier_id := "c-1", box_capacity := 3,
         expected_courier_return_at_utc := 0 }]
    optimization_weights :=
      { certificate_penalty_weight := 100
        click_to_eat_penalty_weight := 1
        skip_order_penalty_weight := some 200 }
    solver_settings := none }

/-- The literal scenario-1 internal problem (spec §8 scenario 1, identical
to the dict of test_tc_001_basic_sanity in src/tests/test_solver.py):
`tau=[[0,10],[10,0]], K=1, C=[10], box=[1], c=[0], r=[0], a=[0],
W_cert=100, W_c2e=1, W_skip=1000`. -/
def scenario1Problem : PDict :=
  [("tau", PVal.m [[0, 10], [10, 0]]),
   ("K", PVal.i 1),
   ("C", PVal.l [10]),
   ("box", PVal.l [1]),
   ("c", PVal.l [0]),
   ("r", PVal.l [0]),
   ("a", PVal.l [0]),
   ("W_cert", PVal.i 100),
   ("W_c2e", PVal.i 1),
   ("W_skip", PVal.i 1000)]

/-- An `N = 0` internal problem (one depot node, one courier), using the
key names `Solver.solve` actually reads. -/
def emptyOrdersProblem : ProblemData :=
  { tau := [[0]]
    courier_capacity_boxes := [3]
    boxes_per_order := []
    order_created_offset := []
    order_ready_offset := []
    courier_available_offset := [5]
    W_cert := 1, W_c2e := 1, W_skip := 1
    time_limit := 15, workers := 8 }

/-- A shape-valid `N = 2` internal problem used to evaluate the big-M
formula on a non-degenerate instance. -/
def twoOrdersProblem : ProblemData :=
  { tau := [[0, 10, 20], [10, 0, 5], [20, 5, 0]]
    courier_capacity_boxes := [10]
    boxes_per_order := [1, 1]
    order_created_offset := [0, 0]
    order_ready_offset := [0, 0]
    courier_available_offset := [0]
    W_cert := 100, W_c2e := 1, W_skip := 1000
    time_limit := 15, workers := 8 }

/-- The dict returned by `Solver.solve`.  `skip = none` models a dict
without the `"skip"` key; each `Option` inside `tdep` and `objective`
models a Python `None` value under a key that is present. -/
structure SolverResult where
  status : String
  objective : Option ℤ
  routes : List (List ℕ)
  tdep : List (Option ℤ)
  tdel : List (ℕ × ℤ)
  cert : List (ℕ × ℤ)
  skip : Option (List (ℕ × ℤ))
  assigned : List ((ℕ × ℕ) × ℤ)
deriving DecidableEq

/-- The non-solution return of `Solver.solve` (solver.py lines 237-245):
status label, null objective, `[0, 0]` per courier, `None` departures,
empty `t_delivery` / `cert` / `assigned_to_courier` maps — and no
`"skip"` key at all. -/
def emptyResult (k : ℕ) (status : String) : SolverResult :=
  { status := status
    objective := none
    routes := List.replicate k [0, 0]
    tdep := List.replicate k none
    tdel := []
    cert := []
    skip := none
    assigned := [] }

/-- State of the route-reconstruction `while` loop of `Solver.solve`
(solver.py lines 280-306): the partial route, the `current` node and the
`visited` set. -/
structure ReconState where
  route : List ℕ
  current : ℕ
  visited : List ℕ
deriving DecidableEq

/-- One iteration of the reconstruction `while` loop.  `Sum.inl` is a
`break` out of the loop with the finished route; `Sum.inr` continues
with the next state.  The arc values `y i j` stand for
`solver.Value(y[(i, j, k)]) == 1` for the fixed courier `k`.  In the
revisited-node branch the source appends the node and the depot but only
breaks the inner `for`, leaving `current` and `visited` unchanged. -/
def reconStep (y : ℕ → ℕ → Bool) (orders : List ℕ) (st : ReconState) :
    Sum (List ℕ) ReconState :=
  if y st.current 0 then Sum.inl (st.route ++ [0])
  else
    match orders.find? (fun j => decide (j ≠ st.current) && y st.current j) with
    | none => Sum.inl (st.route ++ [0])
    | some j =>
      if st.visited.contains j then
        Sum.inr ⟨st.route ++ [j, 0], st.current, st.visited⟩
      else
        Sum.inr ⟨st.route ++ [j], j, st.visited ++ [j]⟩

/-- Runs the reconstruction loop for at most `fuel` iterations;
`none` means the loop is still running after `fuel` iterations. -/
def reconRun (y : ℕ → ℕ → Bool) (orders : List ℕ) :
    ℕ → ReconState → Option (List ℕ)
  | 0, _ => none
  | fuel + 1, st =>
    match reconStep y orders st with
    | Sum.inl route => some route
    | Sum.inr st' => reconRun y orders fuel st'

/-- The route-reconstruction pass for one used courier (solver.py lines
267-308): find the first arc out of the depot, then iterate the `while`
loop.  `none` means the loop has not finished within `fuel` iterations. -/
def reconstructRoute (y : ℕ → ℕ → Bool) (orders : List ℕ) (fuel : ℕ) :
    Option (List ℕ) :=
  match orders.find? (fun j => y 0 j) with
  | none => some [0, 0]
  | some j => reconRun y orders fuel ⟨[0, j], j, [j]⟩

/-- A malformed arc assignment of the kind the spec calls a solver
anomaly: `y[0,1] = y[1,2] = y[2,1] = 1`, everything else 0, so following
the arcs from the depot revisits order 1. -/
def yRevisit (i j : ℕ) : Bool :=
  (i == 0 && j == 1) || (i == 1 && j == 2) || (i == 2 && j == 1)

/-- The per-request state kept on the `Solver` object: `__init__`
(solver.py lines 48-49) creates the single attribute `_last_cp_solver`,
holding `None` or the CP-SAT solver instance of some call (solver
instances are identified by a number). -/
structure SolverObjectState where
  lastCpSolver : Option ℕ
deriving DecidableEq

/-- The effect of one `Solver.solve` call on the `Solver` object
(solver.py line 220): `self._last_cp_solver = solver` stores the
freshly constructed CP-SAT solver instance, replacing whatever the
attribute held before; no other attribute is written. -/
def solveStateUpdate (_s : SolverObjectState) (inst : ℕ) : SolverObjectState :=
  { lastCpSolver := some inst }

/-- A Python `datetime`: displayed wall-clock time in seconds plus an
optional `tzinfo` given as an offset from UTC in seconds (`none` for a
naive datetime). -/
structure PyDatetime where
  wall : ℤ
  tz : Option ℤ
deriving DecidableEq

/-- `_ensure_utc` (domain_mapping.py lines 9-13): a naive datetime gets
`tzinfo=timezone.utc` attached to its unchanged wall-clock time
(`dt.replace`); an aware one is converted (`dt.astimezone`). -/
def ensureUtc (d : PyDatetime) : PyDatetime :=
  match d.tz with
  | none => { wall := d.wall, tz := some 0 }
  | some o => { wall := d.wall - o, tz := some 0 }

/-- The timezone designator ending an ISO-8601 string: absent, an upper
or lower case `Z`, or an explicit numeric offset (in seconds). -/
inductive TzMark where
  | noMark
  | bigZ
  | smallZ
  | offset (seconds : ℤ)
deriving DecidableEq

/-- An input string for `_parse_iso_datetime`: wall-clock seconds, the
timezone designator, and whether the rest of the text is something
`datetime.fromisoformat` can parse at all. -/
structure IsoText where
  wall : ℤ
  mark : TzMark
  parseable : Bool
deriving DecidableEq

/-- `value.replace(\x22z\x22, \x22Z\x22)` (domain_mapping.py line 21) at the level of
the timezone designator: a lowercase `z` becomes an uppercase `Z`
(for an ISO timestamp the letter occurs only as the designator). -/
def replaceLowerZ (s : IsoText) : IsoText :=
  { s with mark := match s.mark with | TzMark.smallZ => TzMark.bigZ | m => m }

/-- Lines 22-23 of domain_mapping.py: when the normalized string ends in
`Z`, the suffix is replaced by the explicit offset `+00:00`. -/
def stripTrailingZ (s : IsoText) : IsoText :=
  if s.mark = TzMark.bigZ then { s with mark := TzMark.offset 0 } else s

/-- `datetime.fromisoformat` on the modelled string: fails on
unparseable text and on a bare `Z`/`z` designator (the code strips those
before calling it), returns a naive datetime for a string without a
designator and an aware one for an explicit offset. -/
def fromisoformat (s : IsoText) : Except String PyDatetime :=
  if s.parseable then
    match s.mark with
    | TzMark.noMark => Except.ok { wall := s.wall, tz := none }
    | TzMark.offset o => Except.ok { wall := s.wall, tz := some o }
    | _ => Except.error "ValueError: Invalid isoformat string"
  else Except.error "ValueError: Invalid isoformat string"

/-- A value handed to `_parse_iso_datetime`: a `datetime`, a string, or
anything else. -/
inductive ParseInput where
  | dt (d : PyDatetime)
  | str (s : IsoText)
  | other
deriving DecidableEq

/-- `_parse_iso_datetime` (domain_mapping.py lines 16-26). -/
def parseIsoDatetime : ParseInput → Except String PyDatetime
  | ParseInput.dt d => Except.ok (ensureUtc d)
  | ParseInput.str s =>
    match fromisoformat (stripTrailingZ (replaceLowerZ s)) with
    | Except.ok parsed => Except.ok (ensureUtc parsed)
    | Except.error e => Except.error e
  | ParseInput.other => Except.error "TypeError: Unsupported datetime value type"

/-- The metadata block of `DomainToSolverMapper.build_metadata`
(domain_mapping.py lines 162-170). -/
structure Metadata where
  orderIndexById : List (String × ℕ)
  orderIds : List String
  courierIds : List String
deriving DecidableEq

/-- `build_metadata`: order ids mapped to indices `1..N` in request
order, plus the ordered id lists. -/
def buildMetadata (orderIds courierIds : List String) : Metadata :=
  { orderIndexById := orderIds.enum.map (fun p => (p.2, p.1 + 1))
    orderIds := orderIds
    courierIds := courierIds }

/-- Lookup in an integer-keyed dict modelled as an association list
(`m.get(k)`). -/
def nlookup (m : List (ℕ × ℤ)) (k : ℕ) : Option ℤ :=
  (List.find? (fun p => p.1 == k) m).map (·.2)

/-- Lookup in a string-keyed association list (`m.get(k)` /
`m[k]`). -/
def slookup {α : Type} (m : List (String × α)) (k : String) : Option α :=
  (List.find? (fun p => p.1 == k) m).map (·.2)

/-- `index_to_order_id` (api.py line 38): the inverted
`order_index_by_id` table. -/
def invertIndex (m : List (String × ℕ)) : List (ℕ × String) :=
  m.map (fun p => (p.2, p.1))

/-- Lookup in the inverted index table. -/
def ilookup (m : List (ℕ × String)) (k : ℕ) : Option String :=
  (List.find? (fun p => p.1 == k) m).map (·.2)

/-- `tau[i][j]` with Python `IndexError` semantics. -/
def mat2get (tau : List (List ℤ)) (i j : ℕ) : Except String ℤ :=
  match tau.get? i with
  | none => Except.error "IndexError: tau"
  | some row =>
    match row.get? j with
    | none => Except.error "IndexError: tau row"
    | some v => Except.ok v

/-- One stop of a courier plan (`CourierStop` of api.py). -/
structure CourierStop where
  position : ℕ
  order_id : String
deriving DecidableEq

/-- `CourierPlan` of api.py; timestamps as UTC seconds. -/
structure CourierPlan where
  courier_id : String
  planned_departure_at_utc : Option ℤ
  planned_return_at_utc : Option ℤ
  delivery_sequence : List CourierStop
deriving DecidableEq

/-- `OrderPlan` of api.py. -/
structure OrderPlan where
  order_id : String
  assigned_courier_id : Option String
  planned_delivery_at_utc : Option ℤ
  is_cert : Bool
  is_skipped : Bool
deriving DecidableEq

/-- `SolveMetrics` of api.py. -/
structure SolveMetrics where
  total_orders : ℕ
  assigned_orders : ℕ
  total_couriers : ℕ
  assigned_couriers : ℕ
  objective_value : ℤ
deriving DecidableEq

/-- `DomainSolveResponse` of api.py. -/
structure DomainSolveResponse where
  status : String
  current_timestamp_utc : ℤ
  couriers : List CourierPlan
  orders : List OrderPlan
  metrics : SolveMetrics
deriving DecidableEq

/-- The route walk of `_format_domain_response` (api.py lines 60-73):
one iteration per node of `route[1:]`, accumulating travel minutes, the
`order_assignments` dict (new entries consed on, so a later write wins a
lookup) and the delivery sequence with 1-based positions counted over
all of `route[1:]`. -/
def routeWalk (tau : List (List ℤ)) (idx2oid : List (ℕ × String))
    (courierId : String) :
    List ℕ → ℕ → ℕ → ℤ → List (String × String) → List CourierStop →
    Except String (ℤ × List (String × String) × List CourierStop)
  | [], _, _, total, asgn, seq => Except.ok (total, asgn, seq)
  | node :: rest, prev, pos, total, asgn, seq =>
    match mat2get tau prev node with
    | Except.error e => Except.error e
    | Except.ok travel =>
      if node ≠ 0 then
        match ilookup idx2oid node with
        | none => Except.error "KeyError: index_to_order_id"
        | some oid =>
          routeWalk tau idx2oid courierId rest node (pos + 1) (total + travel)
            ((oid, courierId) :: asgn) (seq ++ [⟨pos, oid⟩])
      else
        routeWalk tau idx2oid courierId rest node (pos + 1) (total + travel) asgn seq

/-- The courier loop of `_format_domain_response` (api.py lines 51-87):
for each courier id in order, take its route (default `[0, 0]` past the
end of `routes`), and either walk a non-trivial route — `t_departure`
indexing raises past the end and a `None` departure raises in
`timedelta` — or emit the empty plan. -/
def courierLoop (tau : List (List ℤ)) (idx2oid : List (ℕ × String))
    (routes : List (List ℕ)) (tdep : List (Option ℤ)) (base : ℤ) :
    List String → ℕ → List (String × String) → List CourierPlan → ℕ →
    Except String (List CourierPlan × List (String × String) × ℕ)
  | [], _, asgn, plans, ac => Except.ok (plans, asgn, ac)
  | cid :: rest, idx, asgn, plans, ac =>
    let route := routes.getD idx [0, 0]
    let orderNodes := route.filter (fun n => n ≠ 0)
    if orderNodes.isEmpty then
      courierLoop tau idx2oid routes tdep base rest (idx + 1) asgn
        (plans ++ [⟨cid, none, none, []⟩]) ac
    else
      match tdep.get? idx with
      | none => Except.error "IndexError: t_departure"
      | some none => Except.error "TypeError: unsupported type for timedelta"
      | some (some dep) =>
        match route with
        | [] => Except.error "IndexError: route"
        | r0 :: rtail =>
          match routeWalk tau idx2oid cid rtail r0 1 dep asgn [] with
          | Except.error e => Except.error e
          | Except.ok (total, asgn', seq) =>
            courierLoop tau idx2oid routes tdep base rest (idx + 1) asgn'
              (plans ++
                [⟨cid, some (minutesToIsoSec base dep),
                  some (minutesToIsoSec base total), seq⟩])
              (ac + 1)

/-- The order loop of `_format_domain_response` (api.py lines 89-110):
for each order id in order, look up its solver index (a `KeyError`
surfaces), read the skip flag with default 0, and count the order as
assigned when it is not skipped, appears in `order_assignments` and has
a delivery time. -/
def orderLoop (base : ℤ) (orderIndexById : List (String × ℕ))
    (skipFlags tdelMap certMap : List (ℕ × ℤ)) (asgn : List (String × String)) :
    List String → List OrderPlan → ℕ →
    Except String (List OrderPlan × ℕ)
  | [], plans, cnt => Except.ok (plans, cnt)
  | oid :: rest, plans, cnt =>
    match slookup orderIndexById oid with
    | none => Except.error "KeyError: order_index_by_id"
    | some oidx =>
      let skipped : Bool := (nlookup skipFlags oidx).getD 0 != 0
      let acid := slookup asgn oid
      let dmin := nlookup tdelMap oidx
      let hit : Bool := !skipped && acid.isSome && dmin.isSome
      let planned : Option ℤ :=
        if hit then dmin.map (fun d => minutesToIsoSec base d) else none
      let isCert : Bool := (nlookup certMap oidx).getD 0 != 0
      orderLoop base orderIndexById skipFlags tdelMap certMap asgn rest
        (plans ++ [⟨oid, acid, planned, isCert, skipped⟩])
        (if hit then cnt + 1 else cnt)

/-- `_format_domain_response` (api.py lines 27-126): courier loop, order
loop, then the metrics block, whose
`int(solver_result.get(\x22objective\x22, 0))` raises `TypeError` when the
present `objective` entry holds `None`. -/
def formatDomainResponse (base : ℤ) (tau : List (List ℤ))
    (res : SolverResult) (meta : Metadata) :
    Except String DomainSolveResponse := do
  let idx2oid := invertIndex meta.orderIndexById
  let skipFlags := res.skip.getD []
  let (courierPlans, asgn, assignedCouriers) ←
    courierLoop tau idx2oid res.routes res.tdep base meta.courierIds 0 [] [] 0
  let (orderPlans, assignedOrders) ←
    orderLoop base meta.orderIndexById skipFlags res.tdel res.cert asgn
      meta.orderIds [] 0
  let objectiveValue ←
    (match res.objective with
      | some z => Except.ok z
      | none => Except.error "TypeError: int() argument is NoneType")
  Except.ok
    { status := res.status
      current_timestamp_utc := base
      couriers := courierPlans
      orders := orderPlans
      metrics :=
        { total_orders := meta.orderIds.length
          assigned_orders := assignedOrders
          total_couriers := meta.courierIds.length
          assigned_couriers := assignedCouriers
          objective_value := objectiveValue } }

/-- Claim C1: for every valid domain request, the problem dict emitted by
`DomainToSolverMapper.build_problem` (keys `tau, K, C, box, c, r, a,
W_cert, W_c2e[, W_skip, time_limit, workers, max_route_arcs_per_courier]`)
is REJECTED by the input-reading prologue of `Solver.solve`, which
raises `KeyError('courier_capacity_boxes')` right after reading `tau`:
the Mapper→Planner pipeline never completes. -/
theorem build_problem_rejected_by_solver (p : DomainSolveRequest) :
    readProblem (buildProblem p) = Except.error "courier_capacity_boxes" := by
  rcases p with ⟨ref, mat, os, cs, ⟨w1, w2, ws⟩, st⟩
  rcases st with _ | ⟨tl, mw, arcs⟩ <;> rcases ws with _ | w <;>
    first
      | rfl
      | (rcases tl with _ | x <;> rcases mw with _ | y <;>
          rcases arcs with _ | z <;> rfl)

/-- Witness for C1: the repository's own sample payload is rejected with
`KeyError('courier_capacity_boxes')`. -/
theorem build_problem_rejected_by_solver_witness :
    readProblem (buildProblem samplePayload) = Except.error "courier_capacity_boxes" :=
  build_problem_rejected_by_solver samplePayload

/-- Once the reconstruction loop of `Solver.solve` reaches the state
`current = 2, visited = {1, 2}` under the malformed arcs `yRevisit`, the
revisited-node branch fires forever: it appends `[1, 0]` to the route
but never breaks the `while` loop, since the defensive `break` only
exits the inner `for`. -/
theorem reconRun_revisit_stuck :
    ∀ (n : ℕ) (r : List ℕ), reconRun yRevisit [1, 2] n ⟨r, 2, [1, 2]⟩ = none := by
  intro n
  induction n with
  | zero => intro r; rfl
  | succ n ih =>
    intro r
    have hstep : reconStep yRevisit [1, 2] ⟨r, 2, [1, 2]⟩ =
        Sum.inr ⟨r ++ [1, 0], 2, [1, 2]⟩ := rfl
    simp only [reconRun, hstep]
    exact ih (r ++ [1, 0])

/-- Claim C2: the route-reconstruction pass is claimed to terminate for
every `y` assignment and to close the route to the depot on a revisited
node.  It does not: on the arc assignment `y[0,1] = y[1,2] = y[2,1] = 1`
the loop body re-finds the arc `2 → 1` forever (the defensive branch
breaks only the inner `for`), so no amount of fuel makes the loop
finish. -/
theorem route_reconstruction_diverges_on_revisit :
    ∀ fuel : ℕ, reconstructRoute yRevisit [1, 2] fuel = none := by
  intro fuel
  cases fuel with
  | zero => rfl
  | succ n =>
    have h0 : reconstructRoute yRevisit [1, 2] (n + 1) =
        reconRun yRevisit [1, 2] (n + 1) ⟨[0, 1], 1, [1]⟩ := rfl
    have hstep : reconStep yRevisit [1, 2] ⟨[0, 1], 1, [1]⟩ =
        Sum.inr ⟨[0, 1, 2], 2, [1, 2]⟩ := rfl
    rw [h0]
    simp only [reconRun, hstep]
    exact reconRun_revisit_stuck n [0, 1, 2]

/-- Witness for C2 at a concrete fuel value. -/
theorem route_reconstruction_diverges_on_revisit_witness :
    reconstructRoute yRevisit [1, 2] 9 = none :=
  route_reconstruction_diverges_on_revisit 9

/-- Claim C3: a non-solution solver result is claimed to be formatted
into a `DomainSolveResponse` without raising.  It is not: the metrics
block evaluates `int(solver_result.get('objective', 0))` on the present
`objective = None` entry, raising `TypeError`, so the HTTP layer cannot
return 200 with the status label. -/
theorem formatter_raises_on_non_solution_result :
    formatDomainResponse 0 [[0, 10], [10, 0]] (emptyResult 1 "INFEASIBLE")
      (buildMetadata ["o-1"] ["c-1"]) =
      Except.error "TypeError: int() argument is NoneType" := rfl

/-- Claim C4: the non-solution return of `Solver.solve` (solver.py lines
237-245) carries `[0,0]` routes per courier, `None` departures, empty
`t_delivery` / `cert` maps, an empty assignment map and a null
objective — but, contrary to the claim and to the solver's own
docstring, NO `skip` key at all (`skip = none` models the absent key). -/
theorem empty_result_shape_missing_skip :
    (emptyResult 2 "INFEASIBLE").routes = [[0, 0], [0, 0]] ∧
    (emptyResult 2 "INFEASIBLE").tdep = [none, none] ∧
    (emptyResult 2 "INFEASIBLE").tdel = [] ∧
    (emptyResult 2 "INFEASIBLE").cert = [] ∧
    (emptyResult 2 "INFEASIBLE").assigned = [] ∧
    (emptyResult 2 "INFEASIBLE").objective = none ∧
    (emptyResult 2 "INFEASIBLE").skip = none :=
  ⟨rfl, rfl, rfl, rfl, rfl, rfl, rfl⟩

/-- Claim C5: with zero orders the big-M computation is claimed to yield
`max(horizon_start, 0) + 60` without raising; in fact the preceding
`max(tau[i][j] for i != j)` runs over an empty generator and raises
`ValueError`, so the `N == 0` guard is dead code.  The second conjunct
checks the claimed `N ≥ 1` formula `horizon_start + (N+1)·max_tau + 60`
on a concrete two-order instance (`0 + 3·20 + 60 = 120`). -/
theorem bigM_raises_on_zero_orders :
    computeM emptyOrdersProblem =
      Except.error "ValueError: max() arg is an empty sequence" ∧
    computeM twoOrdersProblem = Except.ok 120 :=
  ⟨rfl, rfl⟩

/-- Claim C7: for whole-minute reference and target timestamps, mapping
to integer minutes with the Mapper's banker's rounding and back with the
Formatter's `reference + minutes` arithmetic returns exactly the
original instant (hence the same wall-clock minute); negative offsets
are preserved. -/
theorem minute_offsets_roundtrip (referenceSec targetSec : ℤ)
    (h1 : (60 : ℤ) ∣ referenceSec) (h2 : (60 : ℤ) ∣ targetSec) :
    minutesToIsoSec referenceSec (minutesBetween referenceSec targetSec) = targetSec := by
  obtain ⟨a, ha⟩ := h1
  obtain ⟨b, hb⟩ := h2
  simp only [minutesToIsoSec, minutesBetween, roundHalfEvenSixtieths]
  split_ifs <;> omega

/-- Witness for C7: a whole-minute reference and a whole-minute target
two minutes in the past round-trip exactly. -/
theorem minute_offsets_roundtrip_witness :
    (60 : ℤ) ∣ 60 ∧ (60 : ℤ) ∣ (-120) ∧
    minutesToIsoSec 60 (minutesBetween 60 (-120)) = -120 :=
  ⟨⟨1, by norm_num⟩, ⟨-2, by norm_num⟩,
    minute_offsets_roundtrip 60 (-120) ⟨1, by norm_num⟩ ⟨-2, by norm_num⟩⟩

/-- Counterexample for C8: calling `solve` on a fresh `Solver` object
does NOT leave the object unchanged — the CP-SAT solver instance of the
call is retained in `_last_cp_solver`. -/
theorem solver_state_not_discarded_counterexample :
    solveStateUpdate ⟨none⟩ 0 ≠ (⟨none⟩ : SolverObjectState) ∧
    (solveStateUpdate ⟨none⟩ 0).lastCpSolver = some 0 := by
  refine ⟨fun h => ?_, rfl⟩
  have h2 := congrArg SolverObjectState.lastCpSolver h
  simp only [solveStateUpdate] at h2
  exact Option.noConfusion h2

/-- Amended C8: the CP-SAT model and all decision variables are locals
of `solve` and are dropped on return, but the `CpSolver` instance is
stored in the shared `Solver` object's `_last_cp_solver` attribute; each
call overwrites it, so exactly the most recent call's solver instance is
retained, and nothing else. -/
theorem solver_state_keeps_only_latest_cp_solver (s : SolverObjectState) (inst : ℕ) :
    solveStateUpdate s inst = ⟨some inst⟩ := rfl

/-- Witness for amended C8: a second call overwrites the instance
retained by the first. -/
theorem solver_state_keeps_only_latest_cp_solver_witness :
    solveStateUpdate ⟨some 3⟩ 7 = (⟨some 7⟩ : SolverObjectState) :=
  solver_state_keeps_only_latest_cp_solver ⟨some 3⟩ 7

/-- Claim C9: the literal scenario-1 problem dict (the one the repo's
own test TC-001 feeds to `Solver.solve`) is claimed to solve to OPTIMAL
with objective 10; instead `Solver.solve` raises
`KeyError('courier_capacity_boxes')` because the dict uses the §3 key
names while the solver reads the long key names. -/
theorem scenario1_rejected_by_solver_reader :
    readProblem scenario1Problem = Except.error "courier_capacity_boxes" := rfl

/-- Claim C10: `_parse_iso_datetime` (i) maps a naive datetime to the
same wall-clock time tagged UTC, (ii) likewise a parseable string with
no timezone designator, (iii) treats a lowercase `z` suffix exactly as
`Z`, and (iv) fails precisely on values that are neither datetimes nor
strings and on strings `fromisoformat` cannot parse. -/
theorem parse_iso_datetime_naive_and_lowercase_z :
    (∀ w : ℤ, parseIsoDatetime (ParseInput.dt ⟨w, none⟩) = Except.ok ⟨w, some 0⟩) ∧
    (∀ w : ℤ, parseIsoDatetime (ParseInput.str ⟨w, TzMark.noMark, true⟩) =
        Except.ok ⟨w, some 0⟩) ∧
    (∀ (w : ℤ) (p : Bool), parseIsoDatetime (ParseInput.str ⟨w, TzMark.smallZ, p⟩) =
        parseIsoDatetime (ParseInput.str ⟨w, TzMark.bigZ, p⟩)) ∧
    (∀ v : ParseInput, (∃ e, parseIsoDatetime v = Except.error e) ↔
        (v = ParseInput.other ∨ ∃ w m, v = ParseInput.str ⟨w, m, false⟩)) := by
  refine ⟨fun w => rfl, fun w => rfl, fun w p => by cases p <;> rfl, fun v => ?_⟩
  rcases v with ⟨w, tz⟩ | ⟨w, m, p⟩ | _
  · simp [parseIsoDatetime]
  · cases p <;> cases m <;>
      simp [parseIsoDatetime, fromisoformat, stripTrailingZ, replaceLowerZ]
  · simp [parseIsoDatetime]

/-- A string-keyed lookup succeeds exactly when some binding carries the
key. -/
theorem slookup_isSome_iff {α : Type} (m : List (String × α)) (k : String) :
    (slookup m k).isSome ↔ ∃ pr ∈ m, pr.1 = k := by
  simp [slookup, List.find?_isSome]

/-- On a well-shaped `(n+1) x (n+1)` matrix, `tau[i][j]` succeeds for
indices up to `n`. -/
theorem mat2get_ok {tau : List (List ℤ)} {n : ℕ} (h1 : tau.length = n + 1)
    (h2 : ∀ row ∈ tau, row.length = n + 1) {i j : ℕ} (hi : i ≤ n) (hj : j ≤ n) :
    ∃ v, mat2get tau i j = Except.ok v := by
  have hi2 : i < tau.length := by omega
  have hrow : tau[i]? = some tau[i] := List.getElem?_eq_getElem hi2
  have hmem : tau[i] ∈ tau := List.getElem_mem hi2
  have hlen : tau[i].length = n + 1 := h2 _ hmem
  have hj2 : j < tau[i].length := by omega
  have hcell : tau[i][j]? = some (tau[i][j]) := List.getElem?_eq_getElem hj2
  refine ⟨tau[i][j], ?_⟩
  simp [mat2get, hrow, hcell]

/-- Looking up index `i` in the shifted enumeration of `l` returns the
element at position `i - (b+1)`. -/
theorem ilookup_enumFrom (l : List String) :
    ∀ (b i : ℕ), ilookup ((List.enumFrom b l).map (fun p => (p.1 + 1, p.2))) i =
      if b + 1 ≤ i then l.get? (i - (b + 1)) else none := by
  induction l with
  | nil =>
    intro b i
    simp [ilookup, List.enumFrom]
  | cons a tl ih =>
    intro b i
    rw [List.enumFrom_cons]
    by_cases hbi : b + 1 = i
    · subst hbi
      simp [ilookup, List.find?]
    · have hne : ((b + 1 : ℕ) == i) = false := by simp; omega
      simp only [List.map_cons, ilookup, List.find?]
      rw [hne]
      have hrec := ih (b + 1) i
      simp only [ilookup] at hrec
      rw [hrec]
      by_cases hle : b + 1 ≤ i
      · have hle2 : b + 1 + 1 ≤ i := by omega
        simp only [if_pos hle, if_pos hle2]
        have heq : i - (b + 1) = (i - (b + 1 + 1)) + 1 := by omega
        rw [heq]
        rfl
      · have h3 : ¬ (b + 1 + 1 ≤ i) := by omega
        simp [hle, h3]

/-- The inverted metadata table maps solver index `i` to the `i`-th
order id of the request. -/
theorem ilookup_metadata (oids cids : List String) (i : ℕ) (h1 : 1 ≤ i) :
    ilookup (invertIndex (buildMetadata oids cids).orderIndexById) i = oids.get? (i - 1) := by
  have e : invertIndex (buildMetadata oids cids).orderIndexById =
      (List.enumFrom 0 oids).map (fun p => (p.1 + 1, p.2)) := by
    simp only [invertIndex, buildMetadata, List.enum_eq_enumFrom, List.map_map]
    rfl
  rw [e, ilookup_enumFrom]
  simp [h1]

/-- Looking up an order id in the shifted enumeration returns its
1-based position, provided ids are distinct. -/
theorem slookup_enumFrom (l : List String) :
    ∀ (b j : ℕ) (oid : String), l.Nodup → l.get? j = some oid →
      slookup ((List.enumFrom b l).map (fun p => (p.2, p.1 + 1))) oid = some (b + j + 1) := by
  induction l with
  | nil => intro b j oid _ h; simp at h
  | cons a tl ih =>
    intro b j oid hnd h
    rw [List.enumFrom_cons]
    cases j with
    | zero =>
      simp at h
      subst h
      simp [slookup, List.find?]
    | succ j =>
      simp only [List.get?_cons_succ] at h
      have hmem : oid ∈ tl := List.get?_mem h
      have hne : a ≠ oid := by
        intro hcontra
        subst hcontra
        exact (List.nodup_cons.mp hnd).1 hmem
      have hne2 : (a == oid) = false := by simp [hne]
      simp only [List.map_cons, slookup, List.find?]
      rw [hne2]
      have hrec := ih (b + 1) j oid (List.nodup_cons.mp hnd).2 h
      simp only [slookup] at hrec
      rw [hrec]
      congr 1
      omega

/-- `order_index_by_id` maps the `j`-th order id to `j + 1`. -/
theorem slookup_metadata (oids cids : List String) (j : ℕ) (oid : String)
    (hnd : oids.Nodup) (h : oids.get? j = some oid) :
    slookup (buildMetadata oids cids).orderIndexById oid = some (j + 1) := by
  have e : (buildMetadata oids cids).orderIndexById =
      (List.enumFrom 0 oids).map (fun p => (p.2, p.1 + 1)) := by
    simp only [buildMetadata, List.enum_eq_enumFrom]
  rw [e]
  have hres := slookup_enumFrom oids 0 j oid hnd h
  simpa using hres

/-- A lookup in an appended table succeeds iff it succeeds in one of the
parts. -/
theorem slookup_append_isSome {α : Type} (l1 l2 : List (String × α)) (k : String) :
    (slookup (l1 ++ l2) k).isSome ↔ (slookup l1 k).isSome ∨ (slookup l2 k).isSome := by
  simp only [slookup_isSome_iff, List.mem_append]
  constructor
  · rintro ⟨pr, hpr | hpr, hk⟩
    · exact Or.inl ⟨pr, hpr, hk⟩
    · exact Or.inr ⟨pr, hpr, hk⟩
  · rintro (⟨pr, hpr, hk⟩ | ⟨pr, hpr, hk⟩)
    · exact ⟨pr, Or.inl hpr, hk⟩
    · exact ⟨pr, Or.inr hpr, hk⟩

/-- A lookup in the reversed per-route assignment block succeeds exactly
for the ids of the walked nodes. -/
theorem slookup_revmap_isSome (int : List ℕ) (f : ℕ → String) (cid : String) (k : String) :
    (slookup ((int.map (fun i => (f i, cid))).reverse) k).isSome ↔ ∃ i ∈ int, f i = k := by
  simp only [slookup_isSome_iff, List.mem_reverse, List.mem_map]
  constructor
  · rintro ⟨pr, ⟨i, hi, rfl⟩, hk⟩
    exact ⟨i, hi, hk⟩
  · rintro ⟨i, hi, hk⟩
    exact ⟨(f i, cid), ⟨i, hi, rfl⟩, hk⟩

/-- The formatter route walk over `interior ++ [0]` succeeds on
well-shaped input, produces one stop per interior node, and prepends one
assignment entry per interior node. -/
theorem routeWalk_spec
    (tau : List (List ℤ)) (idx2oid : List (ℕ × String)) (cid : String) (n : ℕ)
    (h1 : tau.length = n + 1) (h2 : ∀ row ∈ tau, row.length = n + 1)
    (hidx : ∀ i, 1 ≤ i → i ≤ n → (ilookup idx2oid i).isSome) :
    ∀ (int : List ℕ) (prev pos : ℕ) (total : ℤ) (asgn : List (String × String))
      (seq : List CourierStop),
      prev ≤ n → (∀ m ∈ int, 1 ≤ m ∧ m ≤ n) →
      ∃ total2 seq2,
        routeWalk tau idx2oid cid (int ++ [0]) prev pos total asgn seq =
          Except.ok (total2,
            (int.map (fun i => ((ilookup idx2oid i).getD "", cid))).reverse ++ asgn,
            seq ++ seq2) ∧
        seq2.length = int.length := by
  intro int
  induction int with
  | nil =>
    intro prev pos total asgn seq hprev _
    obtain ⟨v, hv⟩ := mat2get_ok h1 h2 hprev (Nat.zero_le n)
    refine ⟨total + v, [], ?_, rfl⟩
    simp [routeWalk, hv]
  | cons node rest ih =>
    intro prev pos total asgn seq hprev hall
    have hnode := hall node (by simp)
    obtain ⟨v, hv⟩ := mat2get_ok h1 h2 hprev hnode.2
    have hsome := hidx node hnode.1 hnode.2
    obtain ⟨oid, hoid⟩ := Option.isSome_iff_exists.mp hsome
    obtain ⟨total2, seq2, heq, hlen⟩ :=
      ih node (pos + 1) (total + v) ((oid, cid) :: asgn) (seq ++ [⟨pos, oid⟩]) hnode.2
        (fun m hm => hall m (List.mem_cons_of_mem _ hm))
    refine ⟨total2, ⟨pos, oid⟩ :: seq2, ?_, by simp [hlen]⟩
    have hne : node ≠ 0 := by omega
    have hstep : routeWalk tau idx2oid cid ((node :: rest) ++ [0]) prev pos total asgn seq =
        routeWalk tau idx2oid cid (rest ++ [0]) node (pos + 1) (total + v)
          ((oid, cid) :: asgn) (seq ++ [⟨pos, oid⟩]) := by
      simp [routeWalk, hv, hoid, hne]
    rw [hstep, heq]
    simp [hoid, List.reverse_cons, List.append_assoc]

/-- The formatter courier loop over routes of the shape
`0 :: interior ++ [0]` succeeds, emits delivery sequences whose total
length is the total interior length, and assigns exactly the ids of
routed order nodes. -/
theorem courierLoop_spec
    (tau : List (List ℤ)) (idx2oid : List (ℕ × String)) (n : ℕ)
    (routes : List (List ℕ)) (tdep : List (Option ℤ)) (base : ℤ)
    (h1 : tau.length = n + 1) (h2 : ∀ row ∈ tau, row.length = n + 1)
    (hidx : ∀ i, 1 ≤ i → i ≤ n → (ilookup idx2oid i).isSome) :
    ∀ (cids : List String) (ints : List (List ℕ)) (idx : ℕ)
      (asgn : List (String × String)) (plans : List CourierPlan) (ac : ℕ),
      cids.length = ints.length →
      (∀ m, routes.get? (idx + m) = (ints.get? m).map (fun int => 0 :: (int ++ [0]))) →
      (∀ m, m < cids.length → ∃ d, tdep.get? (idx + m) = some (some d)) →
      (∀ i ∈ ints.flatten, 1 ≤ i ∧ i ≤ n) →
      ∃ plans2 asgn2 ac2,
        courierLoop tau idx2oid routes tdep base cids idx asgn plans ac =
          Except.ok (plans ++ plans2, asgn2, ac2) ∧
        (plans2.map (fun p => p.delivery_sequence.length)).sum =
          (ints.map List.length).sum ∧
        (∀ k, (slookup asgn2 k).isSome ↔
          (slookup asgn k).isSome ∨ ∃ i ∈ ints.flatten, ((ilookup idx2oid i).getD "") = k) := by
  intro cids
  induction cids with
  | nil =>
    intro ints idx asgn plans ac hlen _ _ _
    have hnil : ints = [] := List.eq_nil_of_length_eq_zero hlen.symm
    subst hnil
    refine ⟨[], asgn, ac, by simp [courierLoop], by simp, fun k => by simp⟩
  | cons cid cids2 ih =>
    intro ints idx asgn plans ac hlen hro hd hall
    cases ints with
    | nil => simp at hlen
    | cons t ts =>
      have hlen2 : cids2.length = ts.length := by
        simpa using hlen
      have hroute : routes[idx]? = some (0 :: (t ++ [0])) := by
        have h0 := hro 0
        rw [Nat.add_zero, List.get?_eq_getElem?] at h0
        rw [h0]
        rfl
      have htsub : ∀ i ∈ t, 1 ≤ i ∧ i ≤ n := by
        intro i hi
        exact hall i (List.mem_flatten.mpr ⟨t, List.mem_cons_self t ts, hi⟩)
      have htssub : ∀ i ∈ ts.flatten, 1 ≤ i ∧ i ≤ n := by
        intro i hi
        rw [List.flatten_cons] at hall
        exact hall i (List.mem_append.mpr (Or.inr hi))
      have hro2 : ∀ m, routes.get? (idx + 1 + m) =
          (ts.get? m).map (fun int => 0 :: (int ++ [0])) := by
        intro m
        have := hro (m + 1)
        rw [show idx + (m + 1) = idx + 1 + m by omega] at this
        simpa using this
      have hd2 : ∀ m, m < cids2.length → ∃ d, tdep.get? (idx + 1 + m) = some (some d) := by
        intro m hm
        have := hd (m + 1) (by simp; omega)
        rw [show idx + (m + 1) = idx + 1 + m by omega] at this
        exact this
      cases t with
      | nil =>
        have hstep : courierLoop tau idx2oid routes tdep base (cid :: cids2) idx asgn plans ac =
            courierLoop tau idx2oid routes tdep base cids2 (idx + 1) asgn
              (plans ++ [⟨cid, none, none, []⟩]) ac := by
          simp [courierLoop, hroute]
        obtain ⟨plans2, asgn2, ac2, heq, hsum, hiff⟩ :=
          ih ts (idx + 1) asgn (plans ++ [⟨cid, none, none, []⟩]) ac hlen2 hro2 hd2 htssub
        refine ⟨⟨cid, none, none, []⟩ :: plans2, asgn2, ac2, ?_, ?_, ?_⟩
        · rw [hstep, heq]
          simp
        · simpa using hsum
        · intro k
          rw [hiff k]
          simp
      | cons a t2 =>
        have hfilter : (a :: t2).filter (fun m => decide (m ≠ 0)) = a :: t2 := by
          refine List.filter_eq_self.mpr ?_
          intro x hx
          have := htsub x hx
          simp
          omega
        obtain ⟨d, hdep⟩ := hd 0 (by simp)
        rw [Nat.add_zero, List.get?_eq_getElem?] at hdep
        obtain ⟨total2, seq2, hwalk, hseqlen⟩ :=
          routeWalk_spec tau idx2oid cid n h1 h2 hidx (a :: t2) 0 1 d asgn []
            (Nat.zero_le n) htsub
        have hstep : courierLoop tau idx2oid routes tdep base (cid :: cids2) idx asgn plans ac =
            courierLoop tau idx2oid routes tdep base cids2 (idx + 1)
              (((a :: t2).map (fun i => ((ilookup idx2oid i).getD "", cid))).reverse ++ asgn)
              (plans ++ [⟨cid, some (minutesToIsoSec base d),
                some (minutesToIsoSec base total2), seq2⟩])
              (ac + 1) := by
          have ha0 : (!decide (a = 0)) = true := by
            have := htsub a (by simp)
            simp
            omega
          have ht2 : List.filter (fun m => !decide (m = 0)) t2 = t2 :=
            List.filter_eq_self.mpr (by
              intro x hx
              have := htsub x (by simp [hx])
              simp
              omega)
          have hfull : List.filter (fun m => !decide (m = 0)) (a :: (t2 ++ [0])) =
              a :: t2 := by
            simp [List.filter_cons, ha0, List.filter_append, ht2]
          have hgetd : routes.getD idx [0, 0] = 0 :: (a :: t2 ++ [0]) := by
            rw [List.getD_eq_getElem?_getD, hroute]
            rfl
          have hcond : (List.filter (fun z : ℕ => decide (z ≠ 0))
              (0 :: (a :: t2 ++ [0]))).isEmpty = false := by
            simp only [List.filter_cons]
            simp [List.filter_append, ht2, ha0]
          simp only [courierLoop, hgetd, List.get?_eq_getElem?, hdep, hwalk]
          rw [hcond]
          simp
        obtain ⟨plans2, asgn2, ac2, heq, hsum, hiff⟩ :=
          ih ts (idx + 1)
            (((a :: t2).map (fun i => ((ilookup idx2oid i).getD "", cid))).reverse ++ asgn)
            (plans ++ [⟨cid, some (minutesToIsoSec base d),
              some (minutesToIsoSec base total2), seq2⟩])
            (ac + 1) hlen2 hro2 hd2 htssub
        refine ⟨⟨cid, some (minutesToIsoSec base d),
            some (minutesToIsoSec base total2), seq2⟩ :: plans2, asgn2, ac2, ?_, ?_, ?_⟩
        · rw [hstep, heq]
          simp
        · simp only [List.map_cons, List.sum_cons, hseqlen, hsum]
        · intro k
          rw [hiff k, slookup_append_isSome, slookup_revmap_isSome]
          rw [List.flatten_cons]
          constructor
          · rintro ((⟨i, hi, hfi⟩ | hs) | ⟨i, hi, hfi⟩)
            · exact Or.inr ⟨i, List.mem_append.mpr (Or.inl hi), hfi⟩
            · exact Or.inl hs
            · exact Or.inr ⟨i, List.mem_append.mpr (Or.inr hi), hfi⟩
          · rintro (hs | ⟨i, hi, hfi⟩)
            · exact Or.inl (Or.inr hs)
            · rcases List.mem_append.mp hi with hmem | hmem
              · exact Or.inl (Or.inl ⟨i, hmem, hfi⟩)
              · exact Or.inr ⟨i, hmem, hfi⟩

/-- The formatter order loop succeeds when every order id resolves to
its solver index, counts exactly the orders whose index is routed, and
marks exactly the non-routed ones skipped. -/
theorem orderLoop_spec
    (base : ℤ) (orderIndexById : List (String × ℕ))
    (skipFlags tdelMap certMap : List (ℕ × ℤ)) (asgn : List (String × String))
    (jn : List ℕ) :
    ∀ (pairs : List (ℕ × String)) (plans : List OrderPlan) (cnt : ℕ),
      (∀ pr ∈ pairs,
        slookup orderIndexById pr.2 = some pr.1 ∧
        nlookup skipFlags pr.1 = some (if pr.1 ∈ jn then 0 else 1) ∧
        ((slookup asgn pr.2).isSome ↔ pr.1 ∈ jn) ∧
        (nlookup tdelMap pr.1).isSome) →
      ∃ plans2 cnt2,
        orderLoop base orderIndexById skipFlags tdelMap certMap asgn
          (pairs.map Prod.snd) plans cnt = Except.ok (plans ++ plans2, cnt + cnt2) ∧
        cnt2 = (pairs.filter (fun pr => decide (pr.1 ∈ jn))).length ∧
        (plans2.filter (fun p => !p.is_skipped)).length = cnt2 := by
  intro pairs
  induction pairs with
  | nil =>
    intro plans cnt _
    exact ⟨[], 0, by simp [orderLoop], rfl, rfl⟩
  | cons pr rest ih =>
    obtain ⟨m, oid⟩ := pr
    intro plans cnt hall
    obtain ⟨hsl, hsk, hac, htd⟩ := hall (m, oid) (List.mem_cons_self _ _)
    by_cases hm : m ∈ jn
    · have hskv : nlookup skipFlags m = some 0 := by rw [hsk]; simp [hm]
      obtain ⟨c, hc⟩ := Option.isSome_iff_exists.mp (hac.mpr hm)
      obtain ⟨dv, hdv⟩ := Option.isSome_iff_exists.mp htd
      have hstep : orderLoop base orderIndexById skipFlags tdelMap certMap asgn
          (((m, oid) :: rest).map Prod.snd) plans cnt =
          orderLoop base orderIndexById skipFlags tdelMap certMap asgn
            (rest.map Prod.snd)
            (plans ++ [⟨oid, some c, some (minutesToIsoSec base dv),
              (nlookup certMap m).getD 0 != 0, false⟩]) (cnt + 1) := by
        simp only [List.map_cons, orderLoop, hsl, hskv, hc, hdv]
        norm_num
      obtain ⟨plans2, cnt2, hrec, hcnt, hfil⟩ :=
        ih (plans ++ [⟨oid, some c, some (minutesToIsoSec base dv),
          (nlookup certMap m).getD 0 != 0, false⟩]) (cnt + 1)
          (fun q hq => hall q (List.mem_cons_of_mem _ hq))
      refine ⟨⟨oid, some c, some (minutesToIsoSec base dv),
          (nlookup certMap m).getD 0 != 0, false⟩ :: plans2, cnt2 + 1, ?_, ?_, ?_⟩
      · rw [hstep, hrec]
        have e1 : (plans ++ [(⟨oid, some c, some (minutesToIsoSec base dv),
            (nlookup certMap m).getD 0 != 0, false⟩ : OrderPlan)]) ++ plans2 =
            plans ++ (⟨oid, some c, some (minutesToIsoSec base dv),
              (nlookup certMap m).getD 0 != 0, false⟩ :: plans2) := by
          simp
        have e2 : cnt + 1 + cnt2 = cnt + (cnt2 + 1) := by omega
        rw [e1, e2]
      · have : decide ((m, oid).1 ∈ jn) = true := by simp [hm]
        simp only [List.filter_cons, this, if_pos]
        simp [hcnt]
      · simp only [List.filter_cons]
        simp [hfil]
    · have hskv : nlookup skipFlags m = some 1 := by rw [hsk]; simp [hm]
      have hstep : orderLoop base orderIndexById skipFlags tdelMap certMap asgn
          (((m, oid) :: rest).map Prod.snd) plans cnt =
          orderLoop base orderIndexById skipFlags tdelMap certMap asgn
            (rest.map Prod.snd)
            (plans ++ [⟨oid, slookup asgn oid, none,
              (nlookup certMap m).getD 0 != 0, true⟩]) cnt := by
        simp only [List.map_cons, orderLoop, hsl, hskv]
        norm_num
        rfl
      obtain ⟨plans2, cnt2, hrec, hcnt, hfil⟩ :=
        ih (plans ++ [⟨oid, slookup asgn oid, none,
          (nlookup certMap m).getD 0 != 0, true⟩]) cnt
          (fun q hq => hall q (List.mem_cons_of_mem _ hq))
      refine ⟨⟨oid, slookup asgn oid, none,
          (nlookup certMap m).getD 0 != 0, true⟩ :: plans2, cnt2, ?_, ?_, ?_⟩
      · rw [hstep, hrec]
        have e1 : (plans ++ [(⟨oid, slookup asgn oid, none,
            (nlookup certMap m).getD 0 != 0, true⟩ : OrderPlan)]) ++ plans2 =
            plans ++ (⟨oid, slookup asgn oid, none,
              (nlookup certMap m).getD 0 != 0, true⟩ :: plans2) := by
          simp
        rw [e1]
      · have : decide ((m, oid).1 ∈ jn) = false := by simp [hm]
        simp only [List.filter_cons, this]
        simp [hcnt]
      · simp only [List.filter_cons]
        simp [hfil]

/-- Shifted index counting: exactly one `j < n` satisfies `j + 1 = a`
when `1 ≤ a ≤ n`. -/
theorem countP_singleton_range (a : ℕ) :
    ∀ n : ℕ, 1 ≤ a → a ≤ n →
      (List.range n).countP (fun j => decide (j + 1 = a)) = 1 := by
  intro n
  induction n with
  | zero => intro h1 h2; omega
  | succ n ih =>
    intro h1 h2
    rw [List.range_succ, List.countP_append]
    by_cases ha : a = n + 1
    · have hz : (List.range n).countP (fun j => decide (j + 1 = a)) = 0 := by
        rw [List.countP_eq_zero]
        intro j hj
        have := List.mem_range.mp hj
        simp
        omega
      rw [hz]
      simp [List.countP_cons, ha]
    · have h2b : a ≤ n := by omega
      rw [ih h1 h2b]
      have : (List.countP (fun j => decide (j + 1 = a)) [n]) = 0 := by
        rw [List.countP_eq_zero]
        intro j hj
        simp at hj
        subst hj
        simp
        omega
      rw [this]

/-- Counting a disjunction of disjoint predicates splits into a sum. -/
theorem countP_or_disjoint (p q : ℕ → Bool) :
    ∀ (l : List ℕ), (∀ x ∈ l, ¬(p x = true ∧ q x = true)) →
      l.countP (fun x => p x || q x) = l.countP p + l.countP q := by
  intro l
  induction l with
  | nil => intro _; simp
  | cons a tl ih =>
    intro hdis
    have hrec := ih (fun x hx => hdis x (List.mem_cons_of_mem _ hx))
    simp only [List.countP_cons, hrec]
    have := hdis a (List.mem_cons_self _ _)
    cases hp : p a <;> cases hq : q a <;> simp [hp, hq] at this ⊢ <;> omega

/-- For a duplicate-free list of indices in `1..n`, counting positions
`j < n` with `j + 1` in the list gives its length. -/
theorem countP_range_mem (jn : List ℕ) :
    ∀ n : ℕ, jn.Nodup → (∀ i ∈ jn, 1 ≤ i ∧ i ≤ n) →
      (List.range n).countP (fun j => decide ((j + 1) ∈ jn)) = jn.length := by
  induction jn with
  | nil => intro n _ _; simp
  | cons a tl ih =>
    intro n hnd hb
    have hcong : (List.range n).countP (fun j => decide ((j + 1) ∈ a :: tl)) =
        (List.range n).countP
          (fun j => decide (j + 1 = a) || decide ((j + 1) ∈ tl)) := by
      apply List.countP_congr
      intro j _
      simp [List.mem_cons]
    rw [hcong]
    have hdis : ∀ x ∈ List.range n,
        ¬((fun j => decide (j + 1 = a)) x = true ∧
          (fun j => decide ((j + 1) ∈ tl)) x = true) := by
      intro x _ ⟨hx1, hx2⟩
      simp at hx1 hx2
      subst hx1
      exact (List.nodup_cons.mp hnd).1 hx2
    rw [countP_or_disjoint _ _ _ hdis]
    have hhead := hb a (List.mem_cons_self _ _)
    rw [countP_singleton_range a n hhead.1 hhead.2]
    rw [ih n (List.nodup_cons.mp hnd).2
      (fun i hi => hb i (List.mem_cons_of_mem _ hi))]
    exact Nat.add_comm 1 tl.length

/-- Claim C6: whenever the solver result is coherent in the way CP-SAT
solutions are â routes are `0 :: interior ++ [0]` per courier, the
routed order nodes lie in `1..N` without repetition, the skip flag of an
order is 0 exactly when it is routed, delivery times exist for `1..N`,
departures exist for indices below `K`, the matrix is `(N+1) x (N+1)`
and the objective is non-null â the formatter succeeds and the emitted
metric `assigned_orders` equals both the total length of all
`delivery_sequence` lists and the number of orders with
`is_skipped = false`. -/
theorem formatter_assigned_orders_invariant
    (base : ℤ) (tau : List (List ℤ)) (res : SolverResult)
    (oids cids : List String) (ints : List (List ℕ)) (n : ℕ)
    (hN : oids.length = n) (hnd : oids.Nodup)
    (hroutes : res.routes = ints.map (fun int => 0 :: (int ++ [0])))
    (hK : cids.length = ints.length)
    (hint : ∀ i ∈ ints.flatten, 1 ≤ i ∧ i ≤ n)
    (hjoin : ints.flatten.Nodup)
    (hskip : ∀ i ∈ Finset.Icc 1 n, nlookup (res.skip.getD []) i =
      some (if i ∈ ints.flatten then 0 else 1))
    (htdel : ∀ i ∈ Finset.Icc 1 n, (nlookup res.tdel i).isSome = true)
    (htdep : ∀ k ∈ Finset.range cids.length, ((res.tdep.get? k).join).isSome = true)
    (htaul : tau.length = n + 1) (htaur : ∀ row ∈ tau, row.length = n + 1)
    (hobj : res.objective.isSome = true) :
    ∃ resp, formatDomainResponse base tau res (buildMetadata oids cids) = Except.ok resp ∧
      resp.metrics.assigned_orders =
        (resp.couriers.map (fun p => p.delivery_sequence.length)).sum ∧
      resp.metrics.assigned_orders =
        (resp.orders.filter (fun p => !p.is_skipped)).length := by
  -- index-to-id lookups succeed on 1..n
  have hidx : ∀ i, 1 ≤ i → i ≤ n →
      (ilookup (invertIndex (buildMetadata oids cids).orderIndexById) i).isSome = true := by
    intro i h1 h2
    rw [ilookup_metadata oids cids i h1]
    have hlt : i - 1 < oids.length := by omega
    rw [List.get?_eq_get hlt]
    rfl
  -- courier loop
  have hro : ∀ m, res.routes.get? (0 + m) =
      (ints.get? m).map (fun int => 0 :: (int ++ [0])) := by
    intro m
    rw [Nat.zero_add, hroutes, List.get?_map]
  have hd : ∀ m, m < cids.length → ∃ d, res.tdep.get? (0 + m) = some (some d) := by
    intro m hm
    have := htdep m (Finset.mem_range.mpr hm)
    obtain ⟨d, hd2⟩ := Option.isSome_iff_exists.mp this
    exact ⟨d, by rw [Nat.zero_add]; exact Option.join_eq_some.mp hd2⟩
  obtain ⟨cplans, asgnF, acF, hceq, hsum, hiff⟩ :=
    courierLoop_spec tau (invertIndex (buildMetadata oids cids).orderIndexById) n
      res.routes res.tdep base htaul htaur hidx cids ints 0 [] [] 0 hK hro hd hint
  -- characterize the assignment table built by the courier loop
  have hiff2 : ∀ k, (slookup asgnF k).isSome = true ↔
      ∃ i ∈ ints.flatten,
        ((ilookup (invertIndex (buildMetadata oids cids).orderIndexById) i).getD "") = k := by
    intro k
    rw [hiff k]
    simp [slookup]
  -- order loop
  have hpairs : (oids.enum.map (fun p => (p.1 + 1, p.2))).map Prod.snd = oids := by
    rw [List.map_map]
    have : (Prod.snd ∘ fun p : ℕ × String => (p.1 + 1, p.2)) = Prod.snd := rfl
    rw [this, List.enum_map_snd]
  have hforall : ∀ pr ∈ (oids.enum.map (fun p => (p.1 + 1, p.2))),
      slookup (buildMetadata oids cids).orderIndexById pr.2 = some pr.1 ∧
      nlookup (res.skip.getD []) pr.1 =
        some (if pr.1 ∈ ints.flatten then 0 else 1) ∧
      ((slookup asgnF pr.2).isSome = true ↔ pr.1 ∈ ints.flatten) ∧
      (nlookup res.tdel pr.1).isSome = true := by
    intro pr hpr
    obtain ⟨q, hq, hqe⟩ := List.mem_map.mp hpr
    have hget : oids.get? q.1 = some q.2 := List.mem_enum_iff_get?.mp hq
    have hqlt : q.1 < oids.length := by
      obtain ⟨h, _⟩ := List.get?_eq_some.mp hget
      exact h
    subst hqe
    have hmem : (q.1 + 1) ∈ Finset.Icc 1 n := by
      rw [Finset.mem_Icc]
      omega
    refine ⟨slookup_metadata oids cids q.1 q.2 hnd hget, hskip _ hmem, ?_, htdel _ hmem⟩
    rw [hiff2 q.2]
    constructor
    · rintro ⟨i, hi, hfi⟩
      obtain ⟨hi1, hi2⟩ := hint i hi
      rw [ilookup_metadata oids cids i hi1] at hfi
      have hlt : i - 1 < oids.length := by omega
      rw [List.get?_eq_get hlt] at hfi
      simp at hfi
      have hsome : oids.get? (i - 1) = some q.2 := by
        rw [List.get?_eq_get hlt]
        simpa using hfi
      have := List.get?_inj hlt hnd (hsome.trans hget.symm)
      have hieq : i = q.1 + 1 := by omega
      rw [← hieq]
      exact hi
    · intro hmem2
      refine ⟨q.1 + 1, hmem2, ?_⟩
      rw [ilookup_metadata oids cids (q.1 + 1) (by omega)]
      have he : q.1 + 1 - 1 = q.1 := rfl
      rw [he, hget]
      rfl
  obtain ⟨oplans, cntF, hoeq, hcnt, hfil⟩ :=
    orderLoop_spec base (buildMetadata oids cids).orderIndexById
      (res.skip.getD []) res.tdel res.cert asgnF ints.flatten
      (oids.enum.map (fun p => (p.1 + 1, p.2))) [] 0 hforall
  rw [hpairs] at hoeq
  rw [Nat.zero_add] at hoeq
  simp only [List.nil_append] at hceq hoeq
  -- objective is present
  obtain ⟨z, hz⟩ := Option.isSome_iff_exists.mp hobj
  -- the two counts both equal the number of routed orders
  have hc2 : cntF = ints.flatten.length := by
    rw [hcnt, ← List.countP_eq_length_filter, List.countP_map]
    have he1 : ((fun pr : ℕ × String => decide (pr.1 ∈ ints.flatten)) ∘
        (fun p : ℕ × String => (p.1 + 1, p.2))) =
        (fun p : ℕ × String => decide (p.1 + 1 ∈ ints.flatten)) := rfl
    rw [he1]
    have he2 : List.countP (fun p : ℕ × String => decide (p.1 + 1 ∈ ints.flatten))
        oids.enum =
        List.countP (fun j => decide (j + 1 ∈ ints.flatten)) (List.range oids.length) := by
      rw [← List.enum_map_fst oids, List.countP_map]
      rfl
    rw [he2, hN, countP_range_mem ints.flatten n hjoin hint]
  have hsum2 : (cplans.map (fun p => p.delivery_sequence.length)).sum =
      ints.flatten.length := by
    rw [hsum, List.length_flatten]
  -- assemble the response
  refine ⟨⟨res.status, base, cplans, oplans,
      ⟨oids.length, cntF, cids.length, acF, z⟩⟩, ?_, ?_, ?_⟩
  · show (formatDomainResponse base tau res (buildMetadata oids cids)) = _
    simp only [formatDomainResponse]
    rw [show (buildMetadata oids cids).courierIds = cids from rfl,
      show (buildMetadata oids cids).orderIds = oids from rfl, hceq]
    show (orderLoop base (buildMetadata oids cids).orderIndexById (res.skip.getD [])
        res.tdel res.cert asgnF oids [] 0).bind _ = _
    rw [hoeq]
    rw [hz]
    rfl
  · show cntF = _
    rw [hc2, hsum2]
  · show cntF = _
    exact hfil.symm

/-- Witness for C6: a one-order, one-courier OPTIMAL-shaped result. -/
theorem formatter_assigned_orders_invariant_witness :
    ∃ resp, formatDomainResponse 0 [[0, 10], [10, 0]]
        ⟨"OPTIMAL", some 10, [[0, 1, 0]], [some 0], [(1, 10)], [(1, 0)],
          some [(1, 0)], [((1, 0), 1)]⟩
        (buildMetadata ["o1"] ["c1"]) = Except.ok resp ∧
      resp.metrics.assigned_orders =
        (resp.couriers.map (fun p => p.delivery_sequence.length)).sum ∧
      resp.metrics.assigned_orders =
        (resp.orders.filter (fun p => !p.is_skipped)).length :=
  formatter_assigned_orders_invariant 0 [[0, 10], [10, 0]]
    ⟨"OPTIMAL", some 10, [[0, 1, 0]], [some 0], [(1, 10)], [(1, 0)],
      some [(1, 0)], [((1, 0), 1)]⟩
    ["o1"] ["c1"] [[1]] 1
    (by decide) (by decide) (by decide) (by decide) (by decide) (by decide)
    (by decide) (by decide) (by decide) (by decide) (by decide) (by decide)
